import Mathlib

/-!
Verification of the academic research agent workers core
(`src/workers/src/agent.ts`, `src/workers/src/tools/arxiv.ts`).

The TypeScript source is shallowly embedded: every function of the core is
translated to an executable Lean definition.  External platform primitives
(the Workers AI model call, `fetch`, `JSON.parse`, `Date`,
`encodeURIComponent`, `crypto.randomUUID`) are modelled as explicit oracle
parameters, so each theorem quantifies over every possible behaviour of
those services.  JavaScript strings are modelled by Lean `String` (ASCII
semantics for `toLowerCase`/`trim`), JavaScript truthiness of a string is
the non-emptiness test, and the `Record<string, T>` objects are modelled by
association lists with replace-or-append insertion.
-/

/-! ## Generic string helpers (models of the JavaScript string primitives) -/

/-- Model of the JavaScript whitespace test used by `trim` and `\s`. -/
def isWs (c : Char) : Bool := c = ' ' ∨ c = '\t' ∨ c = '\n' ∨ c = '\r'

/-- Model of `String.prototype.trim`: drop whitespace on both ends. -/
def jsTrim (s : String) : String :=
  ⟨((s.data.dropWhile isWs).reverse.dropWhile isWs).reverse⟩

/-- Model of `String.prototype.toLowerCase` (ASCII range). -/
def jsToLower (s : String) : String := ⟨s.data.map Char.toLower⟩

/-- Boolean list-infix test: does `pat` occur as a contiguous block of `l`. -/
def listInfix (pat : List Char) : List Char → Bool
  | [] => pat.isEmpty
  | c :: rest => pat.isPrefixOf (c :: rest) || listInfix pat rest

/-- Model of `String.prototype.includes`. -/
def strContains (s pat : String) : Bool := listInfix pat.data s.data

/-- Model of `String.prototype.startsWith`. -/
def strStartsWith (s pat : String) : Bool := pat.data.isPrefixOf s.data

/-- Split `cs` at the first occurrence of `pat`, returning the chars before
the occurrence and the chars after it.  `none` when `pat` does not occur.
Models the first match of a literal pattern. -/
def listSplitFirst (pat : List Char) : List Char → Option (List Char × List Char)
  | [] => if pat.isEmpty then some ([], []) else none
  | c :: rest =>
    if pat.isPrefixOf (c :: rest) then some ([], (c :: rest).drop pat.length)
    else match listSplitFirst pat rest with
      | some (pre, post) => some (c :: pre, post)
      | none => none

/-- Fuelled worker for splitting on every occurrence of a literal pattern. -/
def splitOnAux (pat : List Char) : Nat → List Char → List (List Char)
  | 0, cs => [cs]
  | fuel + 1, cs =>
    match listSplitFirst pat cs with
    | some (pre, post) => pre :: splitOnAux pat fuel post
    | none => [cs]

/-- Model of `String.prototype.split` with a non-empty literal separator. -/
def splitOnStr (s sep : String) : List String :=
  (splitOnAux sep.data s.data.length s.data).map (fun cs => (⟨cs⟩ : String))

/-- Fuelled worker replacing every occurrence of a literal pattern. -/
def replaceAllAux (pat repl : List Char) : Nat → List Char → List Char
  | 0, cs => cs
  | fuel + 1, cs =>
    match cs with
    | [] => []
    | c :: rest =>
      if pat.isPrefixOf (c :: rest) ∧ pat ≠ [] then
        repl ++ replaceAllAux pat repl fuel ((c :: rest).drop pat.length)
      else c :: replaceAllAux pat repl fuel rest

/-- Model of a global literal `String.prototype.replace`. -/
def replaceAllStr (s pat repl : String) : String :=
  ⟨replaceAllAux pat.data repl.data s.data.length s.data⟩

/-- Words of a string as split by the regular expression `/\s+/` after a
trim: the maximal runs of non-whitespace characters. -/
def wsWords (s : String) : List String :=
  ((jsTrim s).data.splitOnP (fun c => isWs c)).map (fun cs => (⟨cs⟩ : String))
    |>.filter (fun w => w ≠ "")

/-- Last element of a list with a default, model of `Array.prototype.pop`
on the non-empty result of a split. -/
def lastD (l : List String) (d : String) : String := l.getLastD d

/-- First element with a default. -/
def headD (l : List String) (d : String) : String := l.headD d

example : jsTrim "  ab c  " = "ab c" := by decide
example : strContains "show me sources" "me s" = true := by decide
example : splitOnStr "a/abs/b/abs/c" "/abs/" = ["a", "b", "c"] := by decide
example : wsWords "  a bb  ccc " = ["a", "bb", "ccc"] := by decide
example : replaceAllStr "x``y``z" "``" "" = "xyz" := by decide

/-! ## Embedding of `src/workers/src/tools/arxiv.ts` -/

/-- The `ArxivPaper` record of `tools/arxiv.ts`. -/
structure ArxivPaper where
  id : String
  title : String
  authors : List String
  abstract : String
  link : String
  publishedDate : String
  categories : List String
deriving DecidableEq, Repr

/-- Attempt of the regular expression of `extractTag`
(`<tag[^>]*>([\s\S]*?)</tag>`) anchored at the head of `cs`: the tag
opener, a greedy run of non-gt characters closed by a gt, then a lazy
capture up to the first closing tag. -/
def tryTagAt (tag cs : List Char) : Option String :=
  if ('<' :: tag).isPrefixOf cs then
    match (cs.drop (1 + tag.length)).dropWhile (fun c => c ≠ '>') with
    | '>' :: body =>
      match listSplitFirst ('<' :: '/' :: (tag ++ ['>'])) body with
      | some (content, _) => some (jsTrim ⟨content⟩)
      | none => none
    | _ => none
  else none

/-- Leftmost-match scan for `tryTagAt`, advancing one character on every
failed anchor, as a JavaScript regex search does. -/
def extractTagAux (tag : List Char) : List Char → Option String
  | [] => none
  | c :: rest =>
    match tryTagAt tag (c :: rest) with
    | some r => some r
    | none => extractTagAux tag rest

/-- The `extractTag` helper of `tools/arxiv.ts`: content between an opening
and a closing XML tag, trimmed; `none` when the tag is absent. -/
def extractTag (xml : String) (tag : String) : Option String :=
  extractTagAux tag.data xml.data

/-- Worker for the whitespace collapse of `cleanText` (`/\s+/g → one
space`), tracking whether the previous character was whitespace. -/
def collapseWsAux : Bool → List Char → List Char
  | _, [] => []
  | prevWs, c :: rest =>
    if isWs c then
      if prevWs then collapseWsAux true rest
      else ' ' :: collapseWsAux true rest
    else c :: collapseWsAux false rest

/-- The `cleanText` helper of `tools/arxiv.ts`: collapse whitespace runs,
decode the five fixed XML entities in source order, then trim. -/
def cleanText (text : String) : String :=
  jsTrim
    (replaceAllStr
      (replaceAllStr
        (replaceAllStr
          (replaceAllStr
            (replaceAllStr (⟨collapseWsAux false text.data⟩ : String)
              "&amp;" "&")
            "&lt;" "<")
          "&gt;" ">")
        "&quot;" "\"")
      "&#39;" "\x27")

/-- Fuelled global scan for the author pattern
`/<name>([^<]+)<\/name>/g`: on a match, collect the trimmed capture and
resume after the closing tag; otherwise advance one character. -/
def matchNamesAux : Nat → List Char → List String
  | 0, _ => []
  | _, [] => []
  | fuel + 1, c :: rest =>
    let cs := c :: rest
    if "<name>".data.isPrefixOf cs then
      let body := cs.drop 6
      let cap := body.takeWhile (fun c => c ≠ '<')
      let after := body.drop cap.length
      if cap ≠ [] ∧ "</name>".data.isPrefixOf after then
        jsTrim ⟨cap⟩ :: matchNamesAux fuel (after.drop 7)
      else matchNamesAux fuel rest
    else matchNamesAux fuel rest

/-- Author extraction of `parseArxivAtom`. -/
def matchNames (entry : String) : List String :=
  matchNamesAux entry.data.length entry.data

/-- Backtracking attempt for the greedy `[^>]*` of the category pattern
`<category[^>]*term="([^"]+)"`: try to read `term="` after skipping `k`
characters, retrying with a shorter skip on failure, longest first. -/
def tryCatParam (rest : List Char) : Nat → Option (String × List Char)
  | 0 =>
    let sub := rest
    if "term=\"".data.isPrefixOf sub then
      let cap := (sub.drop 6).takeWhile (fun c => c ≠ '"')
      if cap ≠ [] ∧ ((sub.drop 6).drop cap.length).headD ' ' = '"' then
        some (⟨cap⟩, (sub.drop 6).drop (cap.length + 1))
      else none
    else none
  | k + 1 =>
    let sub := rest.drop (k + 1)
    (if "term=\"".data.isPrefixOf sub then
      let cap := (sub.drop 6).takeWhile (fun c => c ≠ '"')
      if cap ≠ [] ∧ ((sub.drop 6).drop cap.length).headD ' ' = '"' then
        some ((⟨cap⟩ : String), (sub.drop 6).drop (cap.length + 1))
      else none
    else none).orElse (fun _ => tryCatParam rest k)

/-- Anchored attempt of the category pattern. -/
def tryCatAt (cs : List Char) : Option (String × List Char) :=
  if "<category".data.isPrefixOf cs then
    let rest := cs.drop 9
    tryCatParam rest ((rest.takeWhile (fun c => c ≠ '>')).length)
  else none

/-- Fuelled global scan for the category pattern. -/
def matchCatsAux : Nat → List Char → List String
  | 0, _ => []
  | _, [] => []
  | fuel + 1, c :: rest =>
    match tryCatAt (c :: rest) with
    | some (term, after) => term :: matchCatsAux fuel after
    | none => matchCatsAux fuel rest

/-- Category extraction of `parseArxivAtom` (captures are not trimmed). -/
def matchCategories (entry : String) : List String :=
  matchCatsAux entry.data.length entry.data

/-- Backtracking attempt for the second greedy run of the link pattern
`<link[^>]*rel="alternate"[^>]*href="([^"]+)"`. -/
def tryHrefAt (rest2 : List Char) : Nat → Option String
  | 0 =>
    let sub := rest2
    if "href=\"".data.isPrefixOf sub then
      let cap := (sub.drop 6).takeWhile (fun c => c ≠ '"')
      if cap ≠ [] ∧ ((sub.drop 6).drop cap.length).headD ' ' = '"' then some ⟨cap⟩
      else none
    else none
  | k + 1 =>
    let sub := rest2.drop (k + 1)
    (if "href=\"".data.isPrefixOf sub then
      let cap := (sub.drop 6).takeWhile (fun c => c ≠ '"')
      if cap ≠ [] ∧ ((sub.drop 6).drop cap.length).headD ' ' = '"' then some ((⟨cap⟩ : String))
      else none
    else none).orElse (fun _ => tryHrefAt rest2 k)

/-- Backtracking attempt for the first greedy run of the link pattern. -/
def tryRelAt (rest : List Char) : Nat → Option String
  | 0 =>
    if "rel=\"alternate\"".data.isPrefixOf rest then
      let rest2 := rest.drop 15
      tryHrefAt rest2 ((rest2.takeWhile (fun c => c ≠ '>')).length)
    else none
  | k + 1 =>
    let sub := rest.drop (k + 1)
    (if "rel=\"alternate\"".data.isPrefixOf sub then
      let rest2 := sub.drop 15
      tryHrefAt rest2 ((rest2.takeWhile (fun c => c ≠ '>')).length)
    else none).orElse (fun _ => tryRelAt rest k)

/-- Anchored attempt of the link pattern. -/
def tryLinkAt (cs : List Char) : Option String :=
  if "<link".data.isPrefixOf cs then
    let rest := cs.drop 5
    tryRelAt rest ((rest.takeWhile (fun c => c ≠ '>')).length)
  else none

/-- Leftmost match of the alternate-link pattern in an entry. -/
def linkAltAux : List Char → Option String
  | [] => none
  | c :: rest =>
    match tryLinkAt (c :: rest) with
    | some l => some l
    | none => linkAltAux rest

/-- Alternate-link extraction of `parseArxivAtom`. -/
def linkAlternate (entry : String) : Option String := linkAltAux entry.data

/-- One entry of the Atom feed, as assembled by the body of the `for` loop
of `parseArxivAtom`.  `dateToIso` models the platform primitive
`s => new Date(s).toISOString()`, which *throws* a RangeError when the
date string does not parse: `none` models that throw, so `parseEntry`
returns `none` exactly when the entry has a non-empty `published` value
whose conversion throws — the one failure point of the entry body. -/
def parseEntry (dateToIso : String → Option String) (entry : String) :
    Option ArxivPaper :=
  let id :=
    match extractTag entry "id" with
    | none => ""
    | some s => jsTrim (lastD (splitOnStr s "/abs/") "")
  let title := cleanText ((extractTag entry "title").getD "")
  let abstract := cleanText ((extractTag entry "summary").getD "")
  let published := (extractTag entry "published").getD ""
  let publishedDateOpt : Option String :=
    if published ≠ "" then
      match dateToIso published with
      | some iso => some (headD (splitOnStr iso "T") "")
      | none => none
    else some ""
  match publishedDateOpt with
  | none => none
  | some publishedDate =>
    let link :=
      match linkAlternate entry with
      | some l => l
      | none => "https://arxiv.org/abs/" ++ id
    some
      { id := id, title := title, authors := matchNames entry,
        abstract := abstract, link := link, publishedDate := publishedDate,
        categories := matchCategories entry }

/-- List of entry chunks the feed is split into (`xml.split(ENTRY).slice(1)`). -/
def arxivEntries (xml : String) : List String :=
  (splitOnStr xml "<entry>").drop 1

/-- The `parseArxivAtom` function of `tools/arxiv.ts`: parse each entry
inside a per-entry try/catch — an entry whose date conversion throws is
logged and skipped — and keep a parsed record only when both the id and
the title are non-empty.  The function itself never throws. -/
def parseArxivAtom (dateToIso : String → Option String) (xml : String) :
    List ArxivPaper :=
  (arxivEntries xml).filterMap (fun e =>
    match parseEntry dateToIso e with
    | none => none
    | some p => if p.id ≠ "" ∧ p.title ≠ "" then some p else none)

/-- Behaviour of one `fetch` call: network failure, or a response with an
`ok` flag together with whether reading the body text succeeds. -/
inductive FetchOutcome where
  | netError : FetchOutcome
  | resp (ok : Bool) (bodyOk : Bool) (body : String) : FetchOutcome

/-- The stopword set of `searchArxiv`. -/
def arxivStopwords : List String :=
  ["for", "the", "and", "using", "with", "from", "into", "that", "this",
   "are", "can", "per", "via"]

/-- Query terms of `searchArxiv`: whitespace-split words of the trimmed
query, keeping words longer than three characters that are not stopwords. -/
def arxivTerms (query : String) : List String :=
  (wsWords query).filter
    (fun t => t.length > 3 ∧ ¬ arxivStopwords.contains (jsToLower t))

/-- Request URL of `searchArxiv`; `enc` models `encodeURIComponent`. -/
def arxivUrl (enc : String → String) (query : String) (maxResults : Nat) : String :=
  let terms := arxivTerms query
  let searchExpr :=
    if terms.length > 1 then
      String.intercalate "+AND+" (terms.map (fun t => "all:" ++ enc t))
    else "all:" ++ enc (jsTrim query)
  "https://export.arxiv.org/api/query?search_query=" ++ searchExpr ++
    "&start=0&max_results=" ++ toString maxResults ++
    "&sortBy=relevance&sortOrder=descending"

/-- The `searchArxiv` function of `tools/arxiv.ts`.  The try/catch around
`fetch` maps a network failure to `[]`, a non-ok status returns `[]`, but
`response.text()` is awaited outside any try/catch, so a failure while
reading the body propagates (`Except.error`). -/
def searchArxiv (enc : String → String) (dateToIso : String → Option String)
    (doFetch : String → FetchOutcome) (query : String) (maxResults : Nat) :
    Except Unit (List ArxivPaper) :=
  match doFetch (arxivUrl enc query maxResults) with
  | .netError => .ok []
  | .resp ok bodyOk body =>
    if ok = false then .ok []
    else if bodyOk = false then .error ()
    else .ok (parseArxivAtom dateToIso body)

/-! ## Embedding of `src/workers/src/agent.ts`: data model -/

/-- Message roles of the `ChatMessage` interface. -/
inductive Role where
  | user | assistant | system
deriving DecidableEq, Repr

/-- The `ChatMessage` interface. -/
structure ChatMessage where
  role : Role
  content : String
deriving DecidableEq, Repr

/-- The `ResearchPlan` interface. -/
structure ResearchPlan where
  subtopics : List String
  keywords : List String
  outline : List String
  createdAt : String
deriving DecidableEq, Repr

/-- The `PaperInsight` interface. -/
structure PaperInsight where
  paperId : String
  relevanceSummary : String
  keyFindings : String
  researchImpact : String
deriving DecidableEq, Repr

/-- The five workflow phases. -/
inductive Phase where
  | clarification | planning | gathering | summarizing | ongoing
deriving DecidableEq, Repr

/-- String name of a phase, as stored in the TypeScript state. -/
def phaseStr : Phase → String
  | .clarification => "clarification"
  | .planning => "planning"
  | .gathering => "gathering"
  | .summarizing => "summarizing"
  | .ongoing => "ongoing"

/-- The `clarifications` record: three optional free-text facts.  A field
is `none` when unset; the source never stores an empty string in a set
field, so JavaScript falsiness coincides with `Option.isNone`. -/
structure Clarifications where
  academic_level : Option String
  purpose : Option String
  focus_area : Option String
deriving DecidableEq, Repr

/-- The `WorkspaceState` interface.  `paperInsights` is a
`Record<string, PaperInsight>` modelled as an association list with
replace-or-append insertion. -/
structure WorkspaceState where
  workspaceId : String
  topic : String
  researchGoals : String
  phase : Phase
  clarifications : Clarifications
  plan : Option ResearchPlan
  sources : List ArxivPaper
  paperInsights : List (String × PaperInsight)
  chatHistory : List ChatMessage
  lastUpdated : String
  pendingUserMsg : String
  pendingAssistantMsg : String
deriving DecidableEq, Repr

/-- The `initialState` of the agent (the initial `lastUpdated` timestamp,
a clock read, is modelled as the empty string). -/
def initialState : WorkspaceState where
  workspaceId := ""
  topic := ""
  researchGoals := ""
  phase := .clarification
  clarifications := ⟨none, none, none⟩
  plan := none
  sources := []
  paperInsights := []
  chatHistory := []
  lastUpdated := ""
  pendingUserMsg := ""
  pendingAssistantMsg := ""

/-- JSON values, the possible results of the platform primitive
`JSON.parse` (numbers carried as rationals; JSON number literals are
finite decimals). -/
inductive JsVal where
  | null : JsVal
  | bool (b : Bool) : JsVal
  | num (q : ℚ) : JsVal
  | str (s : String) : JsVal
  | arr (elems : List JsVal) : JsVal
  | obj (fields : List (String × JsVal)) : JsVal

/-- JavaScript truthiness of a JSON value. -/
def truthy : JsVal → Bool
  | .null => false
  | .bool b => b
  | .num q => q ≠ 0
  | .str s => s ≠ ""
  | .arr _ => true
  | .obj _ => true

/-- JavaScript string coercion of a JSON value, used where the source
later concatenates a plan item into text.  Strings pass through unchanged
(the only case exercised by well-typed model output); the rendering of the
other shapes is a simplified model of `String(x)`. -/
def jsValToString : JsVal → String
  | .null => "null"
  | .bool b => if b then "true" else "false"
  | .num q => toString q
  | .str s => s
  | .arr _ => "<array>"
  | .obj _ => "[object Object]"

/-- Field access on a parsed JSON value (`undefined` is `none`). -/
def getField : JsVal → String → Option JsVal
  | .obj fields, k => fields.lookup k
  | _, _ => none

/-- The `typeof parsed === "object"` test on a non-null parsed value:
JSON arrays and objects are both of type object. -/
def isObjLike : JsVal → Bool
  | .arr _ => true
  | .obj _ => true
  | _ => false

/-- Oracle for the external platform primitives used by one turn.  `llm`
is the Workers AI call (already normalised to text, as `callLLM` does),
`enc` is `encodeURIComponent`, `dateToIso` is
`s => new Date(s).toISOString()` (`none` models its RangeError on an
unparseable date), `doFetch` is the network, `parseJson`
is `JSON.parse` (`none` models a parse exception), and `now` is the
clock reading `new Date().toISOString()`. -/
structure Oracle where
  llm : List ChatMessage → Nat → String
  enc : String → String
  dateToIso : String → Option String
  doFetch : String → FetchOutcome
  parseJson : String → Option JsVal
  now : String

/-! ## Plan generator (`generatePlan`, agent.ts lines 292-393) -/

/-- Extraction of one array-valued plan field: the field must be an array,
and falsy entries are dropped (`.filter(Boolean)`); the survivors are
coerced to strings. -/
def planFieldStrings (j : JsVal) (k : String) : List String :=
  match getField j k with
  | some (.arr es) => (es.filter truthy).map jsValToString
  | _ => []

/-- One parse attempt: the parsed value is kept for the strategy chain
only when truthy, mirroring the `if (!parsed)` chaining of the source. -/
def jsonAttempt (parseJson : String → Option JsVal) (s : String) : Option JsVal :=
  match parseJson s with
  | some j => if truthy j then some j else none
  | none => none

/-- Strategy 2 of `generatePlan`: the regex `/\x7b[\s\S]*\x7d/` returns
the span from the first opening brace to the last closing brace, when the
latter lies beyond the former. -/
def braceSpan (raw : String) : Option String :=
  let cs := raw.data
  match cs.findIdx? (fun c => c = '\x7b'), cs.reverse.findIdx? (fun c => c = '\x7d') with
  | some i, some jr =>
    let j := cs.length - 1 - jr
    if i < j then some ⟨(cs.drop i).take (j - i + 1)⟩ else none
  | _, _ => none

/-- Case-insensitive literal prefix test (give `pat` in lower case). -/
def ciIsPrefixOf (pat cs : List Char) : Bool :=
  ((cs.take pat.length).map Char.toLower) == pat

/-- Strategy 3 of `generatePlan`: remove every ` ```json ` (case
insensitive on the word) and every ` ``` ` fence marker. -/
def stripFencesAux : Nat → List Char → List Char
  | 0, cs => cs
  | _, [] => []
  | fuel + 1, c :: rest =>
    let cs := c :: rest
    if ciIsPrefixOf "```json".data cs then stripFencesAux fuel (cs.drop 7)
    else if "```".data.isPrefixOf cs then stripFencesAux fuel (cs.drop 3)
    else c :: stripFencesAux fuel rest

/-- The three JSON extraction strategies of `generatePlan`, in order:
direct parse of the trimmed output, parse of the first-to-last brace span,
parse after stripping markdown fences. -/
def planParsed (parseJson : String → Option JsVal) (raw : String) : Option JsVal :=
  (jsonAttempt parseJson (jsTrim raw)).orElse (fun _ =>
    (match braceSpan raw with
     | some m => jsonAttempt parseJson m
     | none => none).orElse (fun _ =>
      jsonAttempt parseJson (jsTrim ⟨stripFencesAux raw.data.length raw.data⟩)))

/-- Acceptance step of `generatePlan`: an extracted value yields a plan
only when it is object-like and both filtered `subtopics` and `keywords`
are non-empty. -/
def planAttempt (parseJson : String → Option JsVal) (raw now : String) :
    Option ResearchPlan :=
  match planParsed parseJson raw with
  | some j =>
    if isObjLike j then
      let subtopics := planFieldStrings j "subtopics"
      let keywords := planFieldStrings j "keywords"
      let outline := planFieldStrings j "outline"
      if subtopics ≠ [] ∧ keywords ≠ [] then
        some { subtopics := subtopics, keywords := keywords,
               outline := outline, createdAt := now }
      else none
    else none
  | none => none

/-- The deterministic fallback plan of `generatePlan`: built from the
topic string and keyword-presence checks on the lower-cased transcript,
with no oracle access.  (The source also computes a `usesImage` flag that
it never reads; it is omitted here.) -/
def fallbackPlan (topic qaTranscriptText now : String) : ResearchPlan :=
  let lowerHistory := jsToLower qaTranscriptText
  let usesAI := strContains lowerHistory "ai" || strContains lowerHistory "machine learning"
    || strContains lowerHistory "deep learning"
  let usesVideo := strContains lowerHistory "video"
  { subtopics := [
      topic ++ " fundamentals and clinical significance",
      (if usesAI then "Deep learning approaches for " ++ topic ++ " analysis"
       else "Image analysis techniques for " ++ topic),
      (if usesVideo then "Video-based " ++ topic ++ " processing methods"
       else "Advanced " ++ topic ++ " processing methods"),
      "Benchmark datasets and evaluation metrics",
      "Transfer learning and pre-trained model adaptation",
      "Clinical validation and deployment challenges"],
    keywords := [
      topic,
      topic ++ " deep learning",
      topic ++ " " ++ (if usesVideo then "video analysis" else "image analysis"),
      topic ++ " neural network",
      topic ++ " classification",
      topic ++ " segmentation",
      "cardiac " ++ (if usesAI then "AI diagnosis" else "image processing"),
      "echocardiography machine learning"],
    outline := [
      "Introduction and clinical motivation",
      "Background: " ++ topic ++ " and cardiac imaging",
      "Related work: AI in medical imaging",
      "Methodology: model architecture and training",
      "Experiments and results",
      "Discussion and limitations",
      "Conclusion and future work"],
    createdAt := now }

/-- The question/answer transcript fed to the plan model:
`history.slice(1)` rendered line by line. -/
def qaTranscript (history : List ChatMessage) : String :=
  String.intercalate "\n" ((history.drop 1).map (fun m =>
    (if m.role = .assistant then "Question: " else "Answer: ") ++ jsTrim m.content))

/-- System prompt of `generatePlan`. -/
def planSystemPrompt : String :=
  String.intercalate "\n" [
    "You are a research planning expert. Generate a detailed, specific research plan based on the conversation below.",
    "Return ONLY a valid JSON object — no markdown, no backticks, no explanation, nothing else.",
    "The JSON must have exactly these keys: subtopics (array of 5-6 strings), keywords (array of 8-12 strings), outline (array of 6-8 strings).",
    "Make every item specific to the actual topic and clarifications discussed — never use generic placeholders.",
    "For keywords: use precise technical terms suitable for arXiv searches (e.g. \"echocardiogram video classification CNN\" not just \"echocardiogram\")."]

/-- User prompt of `generatePlan`. -/
def planUserPrompt (d : WorkspaceState) : String :=
  let transcript := qaTranscript d.chatHistory
  String.intercalate "\n" [
    "Research topic: " ++ d.topic,
    "",
    "Clarification conversation:",
    (if transcript ≠ "" then transcript else "(no clarification conversation yet)"),
    "",
    "Generate the JSON research plan now:"]

/-- Raw model output of the plan call (already normalised to text by
`callLLM`). -/
def planRaw (o : Oracle) (d : WorkspaceState) : String :=
  o.llm [⟨.system, planSystemPrompt⟩, ⟨.user, planUserPrompt d⟩] 1024

/-- The `generatePlan` method: one model call, the three-strategy
extraction chain, and the deterministic fallback. -/
def generatePlan (o : Oracle) (d : WorkspaceState) : ResearchPlan :=
  match planAttempt o.parseJson (planRaw o d) o.now with
  | some p => p
  | none => fallbackPlan d.topic (qaTranscript d.chatHistory) o.now

/-! ## Agent helpers: output cleaning, fact extraction, context building -/

/-- Model of `String.prototype.substring(0, n)`. -/
def strTake (s : String) (n : Nat) : String := ⟨s.data.take n⟩

/-- Model of `Array.prototype.slice(-n)` on the chat history. -/
def lastN (n : Nat) (l : List ChatMessage) : List ChatMessage :=
  l.drop (l.length - n)

/-- Assignment `m[k] = v` on a `Record` modelled as an association list:
replace the binding when the key exists, append otherwise. -/
def insertAssoc (m : List (String × PaperInsight)) (k : String)
    (v : PaperInsight) : List (String × PaperInsight) :=
  if m.any (fun kv => kv.1 = k) then
    m.map (fun kv => if kv.1 = k then (k, v) else kv)
  else m ++ [(k, v)]

/-- Consume a case-insensitive literal (give `pat` in lower case). -/
def eatCI (pat cs : List Char) : Option (List Char) :=
  if ciIsPrefixOf pat cs then some (cs.drop pat.length) else none

/-- Consume one optional character. -/
def eatOpt (ch : Char) : List Char → List Char
  | [] => []
  | c :: rest => if c = ch then rest else c :: rest

/-- Consume the first alternative of a case-insensitive alternation that
matches, in source order. -/
def eatAltCI (pats : List (List Char)) (cs : List Char) : Option (List Char) :=
  match pats with
  | [] => none
  | p :: ps =>
    match eatCI p cs with
    | some r => some r
    | none => eatAltCI ps cs

/-- First pass of `cleanOutput`: remove every
`[[...]]` span whose interior does not start with `OFFER_PLAN` (case
insensitive); the lazy dot excludes line breaks, so a span interrupted by
a newline is not a match. -/
def strip2Brackets : Nat → List Char → List Char
  | 0, cs => cs
  | _, [] => []
  | fuel + 1, c :: rest =>
    let cs := c :: rest
    if "[[".data.isPrefixOf cs ∧ ¬ ciIsPrefixOf "offer_plan".data (cs.drop 2) then
      match listSplitFirst "]]".data (cs.drop 2) with
      | some (span, after) =>
        if span.contains '\n' ∨ span.contains '\r' then
          c :: strip2Brackets fuel rest
        else strip2Brackets fuel after
      | none => c :: strip2Brackets fuel rest
    else c :: strip2Brackets fuel rest

/-- Second pass of `cleanOutput`: truncate at the first case-insensitive
occurrence of the apology marker. -/
def truncCIAux (pat : List Char) : List Char → List Char
  | [] => []
  | c :: rest =>
    if ciIsPrefixOf pat (c :: rest) then [] else c :: truncCIAux pat rest

/-- Anchored attempt of the third `cleanOutput` pattern
`Here'?s (the|my) (corrected|actual|revised) response:?\s*`, returning
the remainder after the match. -/
def tryHeresAt (cs : List Char) : Option (List Char) :=
  match eatCI "here".data cs with
  | none => none
  | some r1 =>
    let r2 := eatOpt '\x27' r1
    match eatCI "s ".data r2 with
    | none => none
    | some r3 =>
      match eatAltCI ["the".data, "my".data] r3 with
      | none => none
      | some r4 =>
        match eatCI " ".data r4 with
        | none => none
        | some r5 =>
          match eatAltCI ["corrected".data, "actual".data, "revised".data] r5 with
          | none => none
          | some r6 =>
            match eatCI " response".data r6 with
            | none => none
            | some r7 => some ((eatOpt ':' r7).dropWhile isWs)

/-- Global scan for the third `cleanOutput` pattern. -/
def stripHeres : Nat → List Char → List Char
  | 0, cs => cs
  | _, [] => []
  | fuel + 1, c :: rest =>
    match tryHeresAt (c :: rest) with
    | some after => stripHeres fuel after
    | none => c :: stripHeres fuel rest

/-- Fourth pass of `cleanOutput`: strip one leading speaker label
`^(Assistant|AI|Bot):\s*` (anchored, case insensitive). -/
def stripLabel (cs : List Char) : List Char :=
  match eatAltCI ["assistant".data, "ai".data, "bot".data] cs with
  | some r =>
    match r with
    | ':' :: r2 => r2.dropWhile isWs
    | _ => cs
  | none => cs

/-- The `cleanOutput` method: the four regex passes in source order,
then a trim. -/
def cleanOutput (raw : String) : String :=
  jsTrim ⟨stripLabel
    (stripHeres raw.data.length
      (truncCIAux "wait, i apologize".data
        (strip2Brackets raw.data.length raw.data)))⟩

/-- Final step of `extractFactsFromMessage`: apply the merged
clarifications patch only when at least one fact was extracted
(`Object.keys(patch).length > 0`). -/
def applyFactsPatch (o : Oracle) (d : WorkspaceState)
    (acad purp foc : Option String) : WorkspaceState :=
  let c := d.clarifications
  if acad.isSome ∨ purp.isSome ∨ foc.isSome then
    { d with
      clarifications := {
        academic_level := match acad with | some v => some v | none => c.academic_level,
        purpose := match purp with | some v => some v | none => c.purpose,
        focus_area := match foc with | some v => some v | none => c.focus_area },
      lastUpdated := o.now }
  else d

/-- The `extractFactsFromMessage` method: keyword heuristics writing only
into clarification fields that are still unset; the patch is applied (and
`lastUpdated` stamped) only when at least one fact was extracted.  The
JavaScript word count `msg.trim().split(/\s+/).length` differs from
`(wsWords msg).length` only on the all-whitespace message (1 versus 0),
where both fail the `> 6` guard. -/
def extractFactsFromMessage (o : Oracle) (d : WorkspaceState) (msg : String) :
    WorkspaceState :=
  let lower := jsToLower msg
  let c := d.clarifications
  let acad : Option String :=
    if c.academic_level.isNone then
      if strContains lower "undergrad" || strContains lower "undergraduate"
          || strContains lower "bachelor" then some "undergraduate"
      else if strContains lower "phd" || strContains lower "doctoral"
          || strContains lower "doctorate" then some "PhD student"
      else if strContains lower "grad student" || strContains lower "graduate student"
          || strContains lower "masters student" then some "graduate student"
      else none
    else none
  let purp : Option String :=
    if c.purpose.isNone then
      if strContains lower "thesis" || strContains lower "dissertation" then
        some "thesis"
      else if strContains lower "paper" || strContains lower "publication"
          || strContains lower "publish" then some "research paper"
      else if strContains lower "class" || strContains lower "course"
          || strContains lower "assignment" || strContains lower "homework" then
        some "class assignment"
      else if strContains lower "curious" || strContains lower "curiosity"
          || strContains lower "interest" || strContains lower "learning"
          || strContains lower "explore" then some "personal curiosity"
      else none
    else none
  let foc : Option String :=
    if c.focus_area.isNone ∧ (wsWords msg).length > 6 ∧ d.topic ≠ "" then
      some (jsTrim msg)
    else none
  applyFactsPatch o d acad purp foc

/-- The `buildContextSummary` method. -/
def buildContextSummary (d : WorkspaceState) : String :=
  let c := d.clarifications
  let parts := ["Topic: " ++ d.topic]
    ++ (match c.focus_area with | some f => ["Focus: " ++ f] | none => [])
    ++ (match c.purpose with | some p => ["Purpose: " ++ p] | none => [])
    ++ (match c.academic_level with | some a => ["Level: " ++ a] | none => [])
  String.intercalate " | " parts

/-! ## Gathering and analysis (`gatherAndAnalyzeSources`, `analyzePaper`) -/

/-- String field of a parsed insight object with the `|| ""` default:
falsy or missing values become the empty string, other values are coerced
to text. -/
def strField (j : JsVal) (k : String) : String :=
  match getField j k with
  | some v => if truthy v then jsValToString v else ""
  | none => ""

/-- The `analyzePaper` method: one model call, brace-span JSON recovery,
and on any failure an insight record with empty fields.  A parse
exception is caught by the internal try/catch of the source. -/
def analyzePaper (o : Oracle) (d : WorkspaceState) (paper : ArxivPaper) :
    PaperInsight :=
  let prompt := "Researcher context: " ++ buildContextSummary d
    ++ "\n\nAnalyze:\nTitle: " ++ paper.title
    ++ "\nAbstract: " ++ strTake paper.abstract 600
    ++ "\n\nReturn ONLY valid JSON:\n"
    ++ "\x7b\"relevanceSummary\":\"why relevant (1-2 sentences)\",\"keyFindings\":\"main contribution (1-2 sentences)\",\"researchImpact\":\"how to use this (1-2 sentences)\"\x7d"
  let raw := o.llm [⟨.system, "Return only valid JSON, no explanation."⟩,
                    ⟨.user, prompt⟩] 512
  match braceSpan raw with
  | some m =>
    match o.parseJson m with
    | some j =>
      { paperId := paper.id,
        relevanceSummary := strField j "relevanceSummary",
        keyFindings := strField j "keyFindings",
        researchImpact := strField j "researchImpact" }
    | none => ⟨paper.id, "", "", ""⟩
  | none => ⟨paper.id, "", "", ""⟩

/-- Concatenated per-keyword search results of one gathering run: one
`searchArxiv` call for each of the first four plan keywords, five results
each, a thrown search being skipped by the surrounding try/catch. -/
def gatherSearchResults (o : Oracle) (plan : ResearchPlan) : List ArxivPaper :=
  (plan.keywords.take 4).foldl (fun acc kw =>
    match searchArxiv o.enc o.dateToIso o.doFetch kw 5 with
    | .ok ps => acc ++ ps
    | .error _ => acc) []

/-- Worker for the dedup filter  `allPapers.filter(p => !seen.has(p.id)
&& seen.add(p.id))`, carrying the set of already seen ids. -/
def dedupByIdAux : List String → List ArxivPaper → List ArxivPaper
  | _, [] => []
  | seen, p :: rest =>
    if seen.contains p.id then dedupByIdAux seen rest
    else p :: dedupByIdAux (p.id :: seen) rest

/-- Deduplication by paper id, first occurrence kept, of
`gatherAndAnalyzeSources`. -/
def dedupById (ps : List ArxivPaper) : List ArxivPaper := dedupByIdAux [] ps

/-- The `gatherAndAnalyzeSources` method, on the pair (draft, persisted
state).  The plan is read from the draft, falling back to the persisted
state; the deduplicated fresh search results *replace* `sources`; the
insight loop covers the first eight sources; the final phase is
`ongoing`.  The intermediate `setState` calls of the source are
subsumed by the returned persisted state, which equals the final draft
(in this sequential model `analyzePaper` is total, so the loop always
completes). -/
def gatherAndAnalyzeSources (o : Oracle) (d st : WorkspaceState) :
    WorkspaceState × WorkspaceState :=
  let planOpt := match d.plan with | some p => some p | none => st.plan
  match planOpt with
  | none => (d, st)
  | some plan =>
    let allPapers := gatherSearchResults o plan
    let sources := dedupById allPapers
    let d1 := { d with sources := sources, phase := .summarizing, lastUpdated := o.now }
    let insights := (sources.take 8).foldl
      (fun m paper => insertAssoc m paper.id (analyzePaper o d1 paper))
      d1.paperInsights
    let d2 := { d1 with paperInsights := insights, lastUpdated := o.now }
    let d3 := { d2 with phase := .ongoing, lastUpdated := o.now }
    (d3, d3)

/-! ## Display builders and the ongoing-phase dispatcher -/

/-- Author line of one entry of the papers listing. -/
def authorsLine (p : ArxivPaper) : String :=
  String.intercalate ", " (p.authors.take 3)
    ++ (if p.authors.length > 3 then " et al." else "") ++ " · " ++ p.publishedDate

/-- Lines pushed for one listed paper by `buildPapersList`: the numbered
title header, the author and link lines, three insight lines when an
insight exists, and a blank separator. -/
def paperBlock (d : WorkspaceState) (i : Nat) (p : ArxivPaper) : List String :=
  ["**" ++ toString (i + 1) ++ ". " ++ p.title ++ "**",
   "   " ++ authorsLine p,
   "   🔗 " ++ p.link]
  ++ (match d.paperInsights.lookup p.id with
      | some ins =>
        ["   **Why it matters:** " ++ ins.relevanceSummary,
         "   **Key finding:** " ++ ins.keyFindings,
         "   **How to use it:** " ++ ins.researchImpact]
      | none => [])
  ++ [""]

/-- The `lines` array of `buildPapersList`: a header naming the total
source count, then blocks for the first ten sources only
(`slice(0, 10)`). -/
def papersListLines (d : WorkspaceState) : List String :=
  ["📚 **" ++ toString d.sources.length ++ " Papers Found**", ""]
  ++ ((d.sources.take 10).enum.map (fun ip => paperBlock d ip.1 ip.2)).flatten

/-- The `buildPapersList` method. -/
def buildPapersList (d : WorkspaceState) : String :=
  if d.sources.length = 0 then "No papers yet. Ask me to \"find more papers\"."
  else String.intercalate "\n" (papersListLines d)

/-- The `buildProgressSummary` method. -/
def buildProgressSummary (d : WorkspaceState) : String :=
  let base := ["📊 **Research Progress**", "**Topic:** " ++ d.topic,
               "**Phase:** " ++ phaseStr d.phase, ""]
  let base2 := base
    ++ (if d.researchGoals ≠ "" then ["**Context:** " ++ d.researchGoals, ""] else [])
  let base3 := base2 ++ (match d.plan with
    | some p => ["**Plan:** ✅ " ++ toString p.subtopics.length ++ " subtopics, "
                  ++ toString p.keywords.length ++ " keywords", ""]
    | none => [])
  String.intercalate "\n"
    (base3 ++ ["**Papers found:** " ++ toString d.sources.length,
               "**Papers analyzed:** " ++ toString d.paperInsights.length])

/-- Progress-summary intent of `handleOngoing` (checked first). -/
def progressTrigger (lower : String) : Bool :=
  strContains lower "show progress" || strContains lower "summarize progress"

/-- Paper-listing intent of `handleOngoing` (checked second). -/
def papersTrigger (lower : String) : Bool :=
  strContains lower "show papers" || strContains lower "show sources"
    || strContains lower "list papers"

/-- Request-more-sources intent of `handleOngoing` (checked third). -/
def moreTrigger (lower : String) : Bool :=
  strContains lower "find more" || strContains lower "add more"
    || strContains lower "more papers"

/-- Context entry for one paper in the free-form system prompt. -/
def paperCtxEntry (d : WorkspaceState) (p : ArxivPaper) : String :=
  let insOpt := d.paperInsights.lookup p.id
  "\"" ++ p.title ++ "\" (" ++ p.publishedDate ++ ")"
  ++ (match insOpt with | some ins => "\n  Relevance: " ++ ins.relevanceSummary | none => "")
  ++ (match insOpt with | some ins => "\n  Findings: " ++ ins.keyFindings | none => "")
  ++ (match insOpt with | some ins => "\n  Usage: " ++ ins.researchImpact | none => "")

/-- The `handleOngoing` method: the three command intents matched in
order on the lower-cased message, else free-form question answering
through the model.  The method never mutates the draft; the detached
`void gatherAndAnalyzeSources()` continuation fired by the third intent
runs outside the turn and is modelled separately. -/
def handleOngoing (o : Oracle) (d : WorkspaceState) (userMessage : String) : String :=
  let lower := jsToLower userMessage
  if progressTrigger lower then buildProgressSummary d
  else if papersTrigger lower then buildPapersList d
  else if moreTrigger lower then
    "🔍 Searching for more papers. Say \"show progress\" to check."
  else
    let papersCtx := String.intercalate "\n\n" ((d.sources.take 8).map (paperCtxEntry d))
    let system := "You are an expert research assistant for: \"" ++ d.topic ++ "\""
      ++ "\nContext: " ++ buildContextSummary d
      ++ "\nPapers:\n" ++ (if papersCtx ≠ "" then papersCtx else "Still gathering.")
      ++ "\nAnswer directly. Reference papers by name when relevant."
    o.llm ([⟨.system, system⟩] ++ lastN 10 d.chatHistory ++ [⟨.user, userMessage⟩]) 1024

/-! ## Phase handlers: planning and clarification -/

/-- Reply text assembled by `handlePlanning` before gathering runs. -/
def planText (topic : String) (plan : ResearchPlan) : String :=
  String.intercalate "\n" (
    ["📋 **Research Plan**", "", "**Topic:** " ++ topic, "",
     "**Subtopics to explore:**"]
    ++ plan.subtopics.map (fun s => "  • " ++ s)
    ++ ["", "**Search keywords:**"]
    ++ plan.keywords.map (fun k => "  • " ++ k)
    ++ ["", "**Suggested outline:**"]
    ++ (plan.outline.enum.map (fun io => "  " ++ toString (io.1 + 1) ++ ". " ++ io.2))
    ++ ["", "🔍 Searching arXiv for relevant papers now..."])

/-- The `handlePlanning` method on (draft, persisted state): generate the
plan, store it with phase `gathering` and the context summary, then run
gathering synchronously; the reply is the plan text built before
gathering. -/
def handlePlanning (o : Oracle) (d st : WorkspaceState) :
    WorkspaceState × WorkspaceState × String :=
  let plan := generatePlan o d
  let researchGoals := buildContextSummary d
  let d1 := { d with
    plan := some plan, phase := .gathering,
    researchGoals := researchGoals, lastUpdated := o.now }
  let reply := planText d1.topic plan
  let (d2, st2) := gatherAndAnalyzeSources o d1 st
  (d2, st2, reply)

/-- Committed question/answer pairs of the clarification prompt: the loop
over `(history[i], history[i+1])` for odd `i`, keeping role-correct
pairs. -/
def qaPairsAux : List ChatMessage → List String
  | a :: b :: rest =>
    (if a.role = .assistant ∧ b.role = .user then
      ["You asked: " ++ jsTrim a.content ++ "\nUser answered: " ++ jsTrim b.content]
     else []) ++ qaPairsAux rest
  | _ => []

/-- The `handleClarification` method on (draft, persisted state).  The
phase advances (to `planning`, then through `handlePlanning`) only on the
exact `__GENERATE_PLAN__` sentinel, and only when a topic is already set;
otherwise the topic is set from the first message, facts are extracted,
and one clarifying question is requested from the model. -/
def handleClarification (o : Oracle) (d st : WorkspaceState) (userMessage : String) :
    WorkspaceState × WorkspaceState × String :=
  if userMessage = "__GENERATE_PLAN__" then
    if d.topic = "" then
      (d, st, "Please tell me your research topic first before generating a plan.")
    else handlePlanning o { d with phase := .planning, lastUpdated := o.now } st
  else
    let d1 := if d.topic = "" then { d with topic := userMessage, lastUpdated := o.now } else d
    let d2 := extractFactsFromMessage o d1 userMessage
    let history := d2.chatHistory
    let qaPairs := qaPairsAux (history.drop 1)
    let lastAssistantMsg := history.reverse.find? (fun m => m.role = .assistant)
    let currentPair :=
      match lastAssistantMsg with
      | some m => some ("You asked: " ++ jsTrim m.content
          ++ "\nUser answered: " ++ jsTrim userMessage)
      | none => none
    let allPairs := match currentPair with | some cp => qaPairs ++ [cp] | none => qaPairs
    let askedQuestions := (history.filter (fun m => m.role = .assistant)).map
      (fun m => "\"" ++ jsTrim m.content ++ "\"")
    let topic := if d2.topic ≠ "" then d2.topic else userMessage
    let systemLines := [
      "You are a research scoping assistant. The user wants to research: " ++ topic,
      "",
      "FULL CONVERSATION SO FAR (all Q&A exchanges including the current one):",
      (if allPairs.length > 0 then String.intercalate "\n\n" allPairs
       else "(no exchanges yet — ask the first clarifying question)"),
      "",
      "QUESTIONS YOU HAVE ALREADY ASKED — DO NOT REPEAT OR REPHRASE ANY OF THESE:",
      (if askedQuestions.length > 0 then String.intercalate "\n" askedQuestions
       else "(none yet)"),
      "",
      "YOUR TASK: Ask ONE short follow-up question to clarify scope, focusing on:",
      "- The specific technical problem or application they want to explore",
      "- The desired output or result from the research",
      "- Scope, approach, or constraints that matter to them",
      "",
      "STRICT RULES:",
      "- Ask ONLY ONE question.",
      "- Do NOT repeat or rephrase any already-asked question.",
      "- Do NOT ask about academic level or personal background.",
      "- Keep it short and specific to: " ++ topic,
      "- Do NOT suggest or mention generating a plan — the user has a dedicated button for that.",
      "",
      "Write ONLY your question. No preamble, no offer to generate a plan."]
    let raw := o.llm [⟨.system, String.intercalate "\n" systemLines⟩,
                      ⟨.user, userMessage⟩] 256
    (d2, st, cleanOutput raw)

/-! ## The request handler (`onRequest`, chat path) -/

/-- The `commitPending` method: append the staged pair (user first, then
assistant) and clear the staging fields, but only when both are
non-empty. -/
def commitPending (o : Oracle) (d : WorkspaceState) : WorkspaceState :=
  if d.pendingUserMsg ≠ "" ∧ d.pendingAssistantMsg ≠ "" then
    { d with
      chatHistory := d.chatHistory
        ++ [⟨.user, d.pendingUserMsg⟩, ⟨.assistant, d.pendingAssistantMsg⟩],
      pendingUserMsg := "", pendingAssistantMsg := "",
      lastUpdated := o.now }
  else d

/-- Step 4 of the chat handler: dispatch on the draft phase.  The
gathering/summarizing case auto-transitions to `ongoing` when both
sources and insights are non-empty, else replies with a wait message.
The returned middle component is the persisted state as of the end of the
handler (only gathering persists mid-turn). -/
def dispatchPhase (o : Oracle) (d st : WorkspaceState) (userMessage : String) :
    WorkspaceState × WorkspaceState × String :=
  match d.phase with
  | .clarification => handleClarification o d st userMessage
  | .planning => handlePlanning o d st
  | .gathering | .summarizing =>
    if d.sources.length > 0 ∧ d.paperInsights.length > 0 then
      let d1 := { d with phase := .ongoing, lastUpdated := o.now }
      (d1, st, handleOngoing o d1 userMessage)
    else
      (d, st, "⏳ Still gathering papers (" ++ toString d.sources.length
        ++ " found so far). Try again in a moment, or say \"show progress\".")
  | .ongoing => (d, st, handleOngoing o d userMessage)

/-- One chat turn of `onRequest` (the `/chat` POST path, message present):
trim the message, snapshot the draft, commit the pending exchange, set
the workspace id on first contact, dispatch to the phase handler, then —
when the draft phase is `planning` or the persisted phase is `ongoing`
or `summarizing` — re-baseline the draft from the persisted state before
staging the new pending pair, and flush.  Returns the flushed state and
the reply. -/
def runTurn (o : Oracle) (st : WorkspaceState) (bodyWorkspaceId rawMsg : String) :
    WorkspaceState × String :=
  let userMessage := jsTrim rawMsg
  let d1 := commitPending o st
  let d2 := if d1.workspaceId = "" ∧ bodyWorkspaceId ≠ "" then
      { d1 with workspaceId := bodyWorkspaceId, lastUpdated := o.now }
    else d1
  let r := dispatchPhase o d2 st userMessage
  let d3 := r.1
  let stMid := r.2.1
  let response := r.2.2
  let d4 := if d3.phase = .planning ∨ stMid.phase = .ongoing ∨ stMid.phase = .summarizing
    then stMid else d3
  let historyUserMsg :=
    if userMessage = "__GENERATE_PLAN__" then "📋 Generate my research plan" else userMessage
  let d5 := { d4 with
    pendingUserMsg := historyUserMsg,
    pendingAssistantMsg := response, lastUpdated := o.now }
  (d5, response)

/-- One turn input: the oracle for the turn, the workspace id carried by
the request body, and the raw message text. -/
structure TurnInput where
  o : Oracle
  wsId : String
  msg : String

/-- Fold of completed turns against one workspace. -/
def runTrace (st : WorkspaceState) : List TurnInput → WorkspaceState
  | [] => st
  | t :: ts => runTrace (runTurn t.o st t.wsId t.msg).1 ts

/-- Read-out of the history including the staged pair, exactly what the
`commitPending` call at the start of the next turn would commit. -/
def historyWithPending (s : WorkspaceState) : List ChatMessage :=
  s.chatHistory ++
    (if s.pendingUserMsg ≠ "" ∧ s.pendingAssistantMsg ≠ "" then
      [⟨.user, s.pendingUserMsg⟩, ⟨.assistant, s.pendingAssistantMsg⟩]
     else [])

/-- Parsed JSON body of an inbound `/api/chat` request; a missing field
is `none`. -/
structure ChatBody where
  workspaceId : Option String
  message : Option String

/-- The `/api/chat` route of the worker entry point composed with the
agent chat handler.  When `message` is missing, `body.message.trim()` in
the agent throws a TypeError before the draft is even initialised; the
entry point catches it and answers with HTTP status 500 and no state
change.  Otherwise the turn runs and the status is 200.  `uuid` models
`crypto.randomUUID()`, used when the body carries no (or an empty)
workspace id. -/
def apiChat (o : Oracle) (uuid : String) (st : WorkspaceState) (body : ChatBody) :
    Nat × WorkspaceState × Option String :=
  let wsId := match body.workspaceId with
    | some w => if w = "" then uuid else w
    | none => uuid
  match body.message with
  | none => (500, st, none)
  | some m =>
    let res := runTurn o st wsId m
    (200, res.1, some res.2)

/-! ## Lemmas on deduplication -/

/-- Bridge from list membership to the boolean `contains` used by the
dedup filter. -/
lemma contains_true_of_mem {l : List String} {a : String} (h : a ∈ l) :
    l.contains a = true := List.elem_iff.mpr h

/-- Bridge from list non-membership to the boolean `contains`. -/
lemma contains_false_of_not_mem {l : List String} {a : String} (h : a ∉ l) :
    l.contains a = false := by
  cases hb : l.contains a
  · rfl
  · exact absurd (List.elem_iff.mp hb) h

/-- Unfolding of the dedup worker when the head id was already seen. -/
lemma dedupByIdAux_cons_mem {seen : List String} {p : ArxivPaper}
    (rest : List ArxivPaper) (h : p.id ∈ seen) :
    dedupByIdAux seen (p :: rest) = dedupByIdAux seen rest := by
  simp only [dedupByIdAux]
  rw [if_pos (contains_true_of_mem h)]

/-- Unfolding of the dedup worker when the head id is new. -/
lemma dedupByIdAux_cons_not_mem {seen : List String} {p : ArxivPaper}
    (rest : List ArxivPaper) (h : p.id ∉ seen) :
    dedupByIdAux seen (p :: rest) = p :: dedupByIdAux (p.id :: seen) rest := by
  simp only [dedupByIdAux]
  rw [if_neg (by simpa using h)]

/-- The dedup filter returns a sublist of its input (order preserved). -/
lemma dedupByIdAux_sublist (seen : List String) (l : List ArxivPaper) :
    List.Sublist (dedupByIdAux seen l) l := by
  induction l generalizing seen with
  | nil => simp [dedupByIdAux]
  | cons p rest ih =>
    by_cases h : p.id ∈ seen
    · rw [dedupByIdAux_cons_mem rest h]
      exact (ih seen).trans (List.sublist_cons_self p rest)
    · rw [dedupByIdAux_cons_not_mem rest h]
      exact (ih (p.id :: seen)).cons₂ p

/-- No kept record carries an id that was already in the seen set. -/
lemma dedupByIdAux_not_seen (seen : List String) (l : List ArxivPaper) :
    ∀ q ∈ dedupByIdAux seen l, q.id ∉ seen := by
  induction l generalizing seen with
  | nil => simp [dedupByIdAux]
  | cons p rest ih =>
    intro q hq
    by_cases h : p.id ∈ seen
    · rw [dedupByIdAux_cons_mem rest h] at hq
      exact ih seen q hq
    · rw [dedupByIdAux_cons_not_mem rest h] at hq
      rcases List.mem_cons.mp hq with rfl | hq'
      · exact h
      · exact fun hc => ih (p.id :: seen) q hq' (List.mem_cons_of_mem _ hc)

/-- The ids of the dedup output are pairwise distinct. -/
lemma dedupByIdAux_nodup (seen : List String) (l : List ArxivPaper) :
    ((dedupByIdAux seen l).map (fun p => p.id)).Nodup := by
  induction l generalizing seen with
  | nil => simp [dedupByIdAux]
  | cons p rest ih =>
    by_cases h : p.id ∈ seen
    · rw [dedupByIdAux_cons_mem rest h]; exact ih seen
    · rw [dedupByIdAux_cons_not_mem rest h]
      simp only [List.map_cons, List.nodup_cons]
      refine ⟨?_, ih (p.id :: seen)⟩
      intro hmem
      rcases List.mem_map.mp hmem with ⟨q, hq, hqid⟩
      exact (dedupByIdAux_not_seen (p.id :: seen) rest q hq) (by simp [hqid])

/-- Every input id survives deduplication (when not already seen). -/
lemma dedupByIdAux_covers (seen : List String) (l : List ArxivPaper) :
    ∀ p ∈ l, p.id ∉ seen → ∃ q ∈ dedupByIdAux seen l, q.id = p.id := by
  induction l generalizing seen with
  | nil => simp
  | cons a rest ih =>
    intro p hp hseen
    by_cases h : a.id ∈ seen
    · rw [dedupByIdAux_cons_mem rest h]
      rcases List.mem_cons.mp hp with rfl | hp'
      · exact absurd h hseen
      · exact ih seen p hp' hseen
    · rw [dedupByIdAux_cons_not_mem rest h]
      rcases List.mem_cons.mp hp with rfl | hp'
      · exact ⟨p, List.mem_cons_self p _, rfl⟩
      · by_cases hap : p.id = a.id
        · exact ⟨a, List.mem_cons_self a _, hap.symm⟩
        · rcases ih (a.id :: seen) p hp' (by simp [hap, hseen]) with ⟨q, hq, hqid⟩
          exact ⟨q, List.mem_cons_of_mem a hq, hqid⟩

/-- Each kept record is the first record of the input with its id. -/
lemma dedupByIdAux_first (seen : List String) (l : List ArxivPaper) :
    ∀ q ∈ dedupByIdAux seen l, l.find? (fun p => p.id == q.id) = some q := by
  induction l generalizing seen with
  | nil => simp [dedupByIdAux]
  | cons p rest ih =>
    intro q hq
    by_cases h : p.id ∈ seen
    · rw [dedupByIdAux_cons_mem rest h] at hq
      have hqn := dedupByIdAux_not_seen seen rest q hq
      have hne : p.id ≠ q.id := fun he => hqn (he ▸ h)
      rw [List.find?_cons_of_neg _ (by simpa using hne)]
      exact ih seen q hq
    · rw [dedupByIdAux_cons_not_mem rest h] at hq
      rcases List.mem_cons.mp hq with rfl | hq'
      · exact List.find?_cons_of_pos _ (by simp)
      · have hqn := dedupByIdAux_not_seen (p.id :: seen) rest q hq'
        have hne : p.id ≠ q.id := fun he => hqn (by simp [he])
        rw [List.find?_cons_of_neg _ (by simpa using hne)]
        exact ih (p.id :: seen) q hq'

/-! ## Claim C4 — within-run deduplication -/

/-- C4: within one gathering invocation, the dedup of the concatenated
per-keyword results is a sublist of the input (first-seen order), its ids
are pairwise distinct, every input id is represented, and each kept
record is the first input record bearing its id. -/
theorem c4_dedup_each_id_once_first_seen (l : List ArxivPaper) :
    List.Sublist (dedupById l) l
    ∧ ((dedupById l).map (fun p => p.id)).Nodup
    ∧ (∀ p ∈ l, ∃ q ∈ dedupById l, q.id = p.id)
    ∧ (∀ q ∈ dedupById l, l.find? (fun p => p.id == q.id) = some q) := by
  refine ⟨dedupByIdAux_sublist [] l, dedupByIdAux_nodup [] l, ?_, dedupByIdAux_first [] l⟩
  intro p hp
  exact dedupByIdAux_covers [] l p hp (by simp)

/-- Paper record with only an id and a title, for concrete runs. -/
def demoPaper (i t : String) : ArxivPaper := ⟨i, t, [], "", "", "", []⟩

/-- Concatenated search results with a repeated id across queries. -/
def c4DemoList : List ArxivPaper :=
  [demoPaper "A" "first", demoPaper "B" "b", demoPaper "A" "second"]

/-- Witness for C4 at a concrete input with a duplicate id. -/
theorem c4_witness :
    (demoPaper "A" "second" ∈ c4DemoList
      ∧ ∃ q ∈ dedupById c4DemoList, q.id = (demoPaper "A" "second").id)
    ∧ (dedupById c4DemoList).map (fun p => p.id) = ["A", "B"] :=
  ⟨⟨by decide, (c4_dedup_each_id_once_first_seen c4DemoList).2.2.1
      (demoPaper "A" "second") (by decide)⟩, by decide⟩

/-! ## Claim C3 — re-invocation of gathering replaces the source list -/

/-- C3 (amended): a gathering invocation reads the plan from the draft,
falling back to the persisted plan, and *replaces* `sources` with the
deduplicated concatenation of the fresh search results (so within the new
list no id is duplicated), finishing in phase `ongoing`.  A previously
persisted id survives only if some fresh search returns it again. -/
theorem c3_gather_replaces (o : Oracle) (d st : WorkspaceState) (plan : ResearchPlan)
    (h : d.plan = some plan ∨ (d.plan = none ∧ st.plan = some plan)) :
    (gatherAndAnalyzeSources o d st).1.sources = dedupById (gatherSearchResults o plan)
    ∧ (((gatherAndAnalyzeSources o d st).1.sources).map (fun p => p.id)).Nodup
    ∧ (gatherAndAnalyzeSources o d st).1.phase = .ongoing := by
  have hplan : (match d.plan with | some p => some p | none => st.plan) = some plan := by
    rcases h with h1 | ⟨h1, h2⟩
    · simp [h1]
    · simp [h1, h2]
  have hs : (gatherAndAnalyzeSources o d st).1.sources
      = dedupById (gatherSearchResults o plan) := by
    simp only [gatherAndAnalyzeSources, hplan]
  have hp : (gatherAndAnalyzeSources o d st).1.phase = .ongoing := by
    simp only [gatherAndAnalyzeSources, hplan]
  refine ⟨hs, ?_, hp⟩
  rw [hs]
  exact dedupByIdAux_nodup [] (gatherSearchResults o plan)

/-- Atom feed returning one fresh paper `B1`, used by the second
gathering run of the C3 counterexample. -/
def c3Feed : String :=
  "<entry><id>http://arxiv.org/abs/B1</id><title>New Paper</title></entry>"

/-- Oracle whose searches all return the fresh paper `B1`. -/
def c3Oracle : Oracle where
  llm := fun _ _ => ""
  enc := fun s => s
  dateToIso := fun s => some s
  doFetch := fun _ => .resp true true c3Feed
  parseJson := fun _ => none
  now := ""

/-- A persisted plan with a single keyword. -/
def c3Plan : ResearchPlan := ⟨["s"], ["newkw"], [], ""⟩

/-- Workspace that already holds paper `A1` when gathering re-runs. -/
def c3State : WorkspaceState :=
  { initialState with
    plan := some c3Plan, sources := [demoPaper "A1" "Old Paper"], phase := .ongoing }

/-- Counterexample to C3 as stated: paper id `A1` is present before the
second gathering invocation and absent afterwards — the invocation
replaces the source list instead of appending to it. -/
theorem c3_counterexample :
    "A1" ∈ c3State.sources.map (fun p => p.id)
    ∧ "A1" ∉ ((gatherAndAnalyzeSources c3Oracle c3State c3State).1.sources.map
        (fun p => p.id)) := by
  constructor
  · decide
  · decide

/-- Witness for the amended C3 at the concrete second-run state. -/
theorem c3_witness :
    (gatherAndAnalyzeSources c3Oracle c3State c3State).1.sources
        = dedupById (gatherSearchResults c3Oracle c3Plan)
    ∧ (((gatherAndAnalyzeSources c3Oracle c3State c3State).1.sources).map
        (fun p => p.id)).Nodup
    ∧ (gatherAndAnalyzeSources c3Oracle c3State c3State).1.phase = .ongoing :=
  c3_gather_replaces c3Oracle c3State c3State c3Plan (Or.inl rfl)

/-! ## Claim C7 — keep/discard rule of the feed parser -/

/-- C7 (amended): a record is kept if and only if its entry parses
without error — in particular the published-date conversion does not
throw — *and* it has a non-empty id *and* a non-empty title; a record
lacking either field, or whose date conversion throws (the per-entry
catch turns the throw into a skip), is discarded. -/
theorem c7_kept_iff_id_and_title (dti : String → Option String) (xml : String)
    (p : ArxivPaper) :
    p ∈ parseArxivAtom dti xml ↔
      ∃ e ∈ arxivEntries xml, parseEntry dti e = some p ∧ p.id ≠ "" ∧ p.title ≠ "" := by
  simp only [parseArxivAtom, List.mem_filterMap]
  constructor
  · rintro ⟨e, he, hf⟩
    cases hpe : parseEntry dti e with
    | none => rw [hpe] at hf; exact absurd hf (by simp)
    | some q =>
      rw [hpe] at hf
      dsimp only at hf
      by_cases h : q.id ≠ "" ∧ q.title ≠ ""
      · rw [if_pos h] at hf
        obtain rfl := Option.some.inj hf
        exact ⟨e, he, hpe, h.1, h.2⟩
      · rw [if_neg h] at hf
        exact absurd hf (by simp)
  · rintro ⟨e, he, hpe, hid, htl⟩
    refine ⟨e, he, ?_⟩
    rw [hpe]
    dsimp only
    rw [if_pos ⟨hid, htl⟩]

/-- Feed whose single entry has an id but no title. -/
def c7Feed : String :=
  "<feed><entry><id>http://arxiv.org/abs/1234.5678</id></entry></feed>"

/-- Counterexample to C7 as stated: the entry parses (no date to
convert) with a non-empty id and an empty title, and the parser
*discards* it (the claim says a record with an id but no title is
kept). -/
theorem c7_counterexample :
    (parseEntry (fun s => some s) ((arxivEntries c7Feed).headD "")).map
        (fun p => p.id) = some "1234.5678"
    ∧ (parseEntry (fun s => some s) ((arxivEntries c7Feed).headD "")).map
        (fun p => p.title) = some ""
    ∧ parseArxivAtom (fun s => some s) c7Feed = [] :=
  ⟨by decide, by decide, by decide⟩

/-- Feed whose single entry has both an id and a title and no published
date. -/
def c7FeedOk : String :=
  "<entry><id>http://arxiv.org/abs/X1</id><title>T</title></entry>"

/-- The record that entry parses to. -/
def c7KeptPaper : ArxivPaper :=
  ⟨"X1", "T", [], "", "https://arxiv.org/abs/X1", "", []⟩

/-- Feed whose single entry has both an id and a title but a published
date; under a date conversion that throws, the per-entry catch skips the
entry. -/
def c7FeedBadDate : String :=
  "<entry><id>http://arxiv.org/abs/X2</id><title>T2</title><published>garbage</published></entry>"

/-- Witness for the amended C7: the complete entry is kept (through the
biconditional at a concrete feed), and an entry with both fields but a
throwing date conversion is discarded. -/
theorem c7_witness :
    c7KeptPaper ∈ parseArxivAtom (fun s => some s) c7FeedOk
    ∧ parseArxivAtom (fun _ => none) c7FeedBadDate = [] :=
  ⟨(c7_kept_iff_id_and_title (fun s => some s) c7FeedOk c7KeptPaper).mpr
      ⟨(arxivEntries c7FeedOk).headD "", by decide, by decide, by decide, by decide⟩,
   by decide⟩

/-! ## Claim C6 — error handling of the search client -/

/-- C6 (amended): `searchArxiv` returns the empty list on network failure
and on a non-ok HTTP status, and returns the parsed records whenever the
body text is readable (`parseArxivAtom` itself never throws: its
per-entry catch absorbs date-conversion throws, and an unparseable body
yields an empty parse); only a failure while *reading* the body
propagates. -/
theorem c6_search_degrades (enc : String → String) (dti : String → Option String)
    (f : String → FetchOutcome) (q : String) (n : Nat) :
    (f (arxivUrl enc q n) = .netError → searchArxiv enc dti f q n = .ok [])
    ∧ (∀ bOk b, f (arxivUrl enc q n) = .resp false bOk b →
        searchArxiv enc dti f q n = .ok [])
    ∧ (∀ b, f (arxivUrl enc q n) = .resp true true b →
        searchArxiv enc dti f q n = .ok (parseArxivAtom dti b)) := by
  refine ⟨fun h => ?_, fun bOk b h => ?_, fun b h => ?_⟩ <;> simp [searchArxiv, h]

/-- Counterexample to C6 as stated: when the response is ok but reading
its body fails, `searchArxiv` propagates the failure instead of
returning an empty sequence (`response.text()` is outside the
try/catch). -/
theorem c6_counterexample :
    searchArxiv (fun s => s) (fun s => some s) (fun _ => .resp true false "") "query" 5
      = .error () := rfl

/-- Witness for the amended C6 at a concrete network failure. -/
theorem c6_witness :
    searchArxiv (fun s => s) (fun s => some s) (fun _ => .netError) "query" 5 = .ok [] :=
  (c6_search_degrades (fun s => s) (fun s => some s) (fun _ => .netError) "query" 5).1 rfl

/-! ## Claim C5 — plan generation never yields an empty plan -/

/-- An accepted parse attempt always carries non-empty subtopics and
keywords (the acceptance guard of `generatePlan`). -/
lemma planAttempt_nonempty {pj : String → Option JsVal} {raw now : String}
    {p : ResearchPlan} (h : planAttempt pj raw now = some p) :
    p.subtopics ≠ [] ∧ p.keywords ≠ [] := by
  unfold planAttempt at h
  cases hp : planParsed pj raw with
  | none => rw [hp] at h; exact absurd h (by simp)
  | some j =>
    rw [hp] at h
    dsimp only at h
    by_cases hobj : isObjLike j = true
    · rw [if_pos hobj] at h
      by_cases hne : planFieldStrings j "subtopics" ≠ [] ∧ planFieldStrings j "keywords" ≠ []
      · rw [if_pos hne] at h
        obtain rfl := Option.some.inj h
        exact hne
      · rw [if_neg hne] at h
        exact absurd h (by simp)
    · rw [if_neg hobj] at h
      exact absurd h (by simp)

/-- C5: for every model output (any string, any behaviour of
`JSON.parse`), `generatePlan` returns a plan with non-empty subtopics and
keywords; and whenever the three-strategy extraction fails or yields
empty arrays, the result is exactly the deterministic fallback computed
from the topic and the transcript — `fallbackPlan` takes no oracle, so no
further network call is involved. -/
theorem c5_plan_nonempty_with_fallback (o : Oracle) (d : WorkspaceState) :
    (generatePlan o d).subtopics ≠ []
    ∧ (generatePlan o d).keywords ≠ []
    ∧ (planAttempt o.parseJson (planRaw o d) o.now = none →
        generatePlan o d = fallbackPlan d.topic (qaTranscript d.chatHistory) o.now) := by
  cases h : planAttempt o.parseJson (planRaw o d) o.now with
  | some p =>
    have hg : generatePlan o d = p := by simp [generatePlan, h]
    have hn := planAttempt_nonempty h
    exact ⟨hg ▸ hn.1, hg ▸ hn.2, fun hc => Option.noConfusion hc⟩
  | none =>
    have hg : generatePlan o d
        = fallbackPlan d.topic (qaTranscript d.chatHistory) o.now := by
      simp [generatePlan, h]
    refine ⟨?_, ?_, fun _ => hg⟩
    · rw [hg]; simp [fallbackPlan]
    · rw [hg]; simp [fallbackPlan]

/-- Oracle whose model replies with plain prose and whose `JSON.parse`
rejects every input. -/
def c5Oracle : Oracle where
  llm := fun _ _ => "I would suggest studying the fundamentals first."
  enc := fun s => s
  dateToIso := fun s => some s
  doFetch := fun _ => .netError
  parseJson := fun _ => none
  now := ""

/-- Witness for C5: on prose output all strategies fail and the fallback
plan is returned, non-empty. -/
theorem c5_witness :
    planAttempt c5Oracle.parseJson (planRaw c5Oracle initialState) c5Oracle.now = none
    ∧ (generatePlan c5Oracle initialState).subtopics ≠ []
    ∧ (generatePlan c5Oracle initialState).keywords ≠ []
    ∧ generatePlan c5Oracle initialState
        = fallbackPlan initialState.topic (qaTranscript initialState.chatHistory)
            c5Oracle.now :=
  ⟨by decide,
   (c5_plan_nonempty_with_fallback c5Oracle initialState).1,
   (c5_plan_nonempty_with_fallback c5Oracle initialState).2.1,
   (c5_plan_nonempty_with_fallback c5Oracle initialState).2.2 (by decide)⟩

/-! ## Claim C2 — the clarification-to-planning trigger -/

/-- The conditional clarification patch never touches the phase, the
history, the topic or the staged pending pair. -/
lemma applyFactsPatch_fields (o : Oracle) (d : WorkspaceState)
    (a p f : Option String) :
    (applyFactsPatch o d a p f).phase = d.phase
    ∧ (applyFactsPatch o d a p f).chatHistory = d.chatHistory
    ∧ (applyFactsPatch o d a p f).topic = d.topic
    ∧ (applyFactsPatch o d a p f).pendingUserMsg = d.pendingUserMsg
    ∧ (applyFactsPatch o d a p f).pendingAssistantMsg = d.pendingAssistantMsg := by
  unfold applyFactsPatch
  split <;> exact ⟨rfl, rfl, rfl, rfl, rfl⟩

/-- Fact extraction never touches the phase, the history, the topic or
the staged pending pair. -/
lemma extractFacts_fields (o : Oracle) (d : WorkspaceState) (m : String) :
    (extractFactsFromMessage o d m).phase = d.phase
    ∧ (extractFactsFromMessage o d m).chatHistory = d.chatHistory
    ∧ (extractFactsFromMessage o d m).topic = d.topic
    ∧ (extractFactsFromMessage o d m).pendingUserMsg = d.pendingUserMsg
    ∧ (extractFactsFromMessage o d m).pendingAssistantMsg = d.pendingAssistantMsg := by
  unfold extractFactsFromMessage
  exact applyFactsPatch_fields o d _ _ _

/-- With a plan in the draft, gathering always ends in phase `ongoing`. -/
lemma gather_phase_ongoing (o : Oracle) (d st : WorkspaceState) (p : ResearchPlan)
    (h : d.plan = some p) :
    (gatherAndAnalyzeSources o d st).1.phase = .ongoing := by
  simp only [gatherAndAnalyzeSources, h]

/-- The planning handler always leaves the draft in phase `ongoing`
(plan generation is total and gathering runs synchronously). -/
lemma handlePlanning_phase (o : Oracle) (d st : WorkspaceState) :
    ((handlePlanning o d st).1).phase = .ongoing := by
  simp only [handlePlanning]
  exact gather_phase_ongoing o _ st (generatePlan o d) rfl

/-- C2 (amended): from phase `clarification`, the phase advances — and
when it does, the handler is exactly `handlePlanning` applied to the
draft patched to phase `planning`, the clarification-to-planning
transition of agent.ts:146 — if and only if the message is exactly the
`__GENERATE_PLAN__` sentinel *and* a topic is already set; in particular
no free-text message — including one containing the word plan — ever
advances the phase. -/
theorem c2_advance_iff_sentinel_and_topic (o : Oracle) (d st : WorkspaceState)
    (msg : String) (hphase : d.phase = .clarification) :
    (((handleClarification o d st msg).1).phase ≠ .clarification
      ↔ (msg = "__GENERATE_PLAN__" ∧ d.topic ≠ ""))
    ∧ ((msg = "__GENERATE_PLAN__" ∧ d.topic ≠ "") →
        handleClarification o d st msg
          = handlePlanning o { d with phase := .planning, lastUpdated := o.now } st) := by
  constructor
  · by_cases hs : msg = "__GENERATE_PLAN__"
    · subst hs
      by_cases ht : d.topic = ""
      · simp [handleClarification, ht, hphase]
      · have hadv : ((handleClarification o d st "__GENERATE_PLAN__").1).phase = .ongoing := by
          simp only [handleClarification, if_pos]
          rw [if_neg ht]
          exact handlePlanning_phase o _ st
        simp [hadv, ht]
    · have hkeep : ((handleClarification o d st msg).1).phase = d.phase := by
        simp only [handleClarification]
        rw [if_neg hs]
        dsimp only
        by_cases ht : d.topic = ""
        · rw [if_pos ht]
          exact (extractFacts_fields o _ msg).1
        · rw [if_neg ht]
          exact (extractFacts_fields o d msg).1
      simp [hkeep, hphase, hs]
  · rintro ⟨hs, ht⟩
    subst hs
    unfold handleClarification
    rw [if_pos rfl, if_neg ht]

/-- Atom feed with one complete paper, used by the concrete runs. -/
def demoFeedOne : String :=
  "<entry><id>http://arxiv.org/abs/1111.2222</id><title>Paper One</title></entry>"

/-- Oracle for concrete runs: a short model reply, searches that return
the one demo paper, and a `JSON.parse` that rejects everything. -/
def demoOracle : Oracle where
  llm := fun _ _ => "ok?"
  enc := fun s => s
  dateToIso := fun s => some s
  doFetch := fun _ => .resp true true demoFeedOne
  parseJson := fun _ => none
  now := ""

/-- Counterexample to C2 as stated: the sentinel arriving while no topic
is set does *not* advance the phase (the claim asserts the sentinel
always triggers the transition). -/
theorem c2_counterexample :
    ((handleClarification demoOracle initialState initialState
        "__GENERATE_PLAN__").1).phase = .clarification
    ∧ initialState.topic = "" :=
  ⟨by decide, rfl⟩

/-- Witness for the amended C2: a free-text message containing the word
plan, against a workspace with a topic, does not advance the phase; and
the sentinel against the same workspace routes through `handlePlanning`
on the planning-patched draft. -/
theorem c2_witness :
    (((handleClarification demoOracle { initialState with topic := "t" } initialState
        "tell me about the plan").1).phase ≠ .clarification
      ↔ ("tell me about the plan" = "__GENERATE_PLAN__"
          ∧ ({ initialState with topic := "t" } : WorkspaceState).topic ≠ ""))
    ∧ handleClarification demoOracle { initialState with topic := "t" } initialState
          "__GENERATE_PLAN__"
        = handlePlanning demoOracle
            { ({ initialState with topic := "t" } : WorkspaceState) with
              phase := .planning, lastUpdated := demoOracle.now }
            initialState :=
  ⟨(c2_advance_iff_sentinel_and_topic demoOracle
      { initialState with topic := "t" } initialState "tell me about the plan" rfl).1,
   (c2_advance_iff_sentinel_and_topic demoOracle
      { initialState with topic := "t" } initialState "__GENERATE_PLAN__" rfl).2
     ⟨rfl, by decide⟩⟩

/-! ## Claim C8 — the show-sources listing -/

/-- A line starting with two stars is counted as a listing entry header. -/
lemma starsPrefix_append (s : String) : strStartsWith ("**" ++ s) "**" = true := by
  simp [strStartsWith, String.data_append, List.isPrefixOf]

/-- A line whose first character is not a star is not an entry header. -/
lemma notStarsPrefix_of_head (lit : String) {c : Char} {cs : List Char}
    (hd : lit.data = c :: cs) (hc : ('*' == c) = false) (s : String) :
    strStartsWith (lit ++ s) "**" = false := by
  simp [strStartsWith, String.data_append, hd, List.isPrefixOf, hc]

/-- The empty separator line is not an entry header. -/
lemma emptyNotStars : strStartsWith "" "**" = false := by decide

/-- Each paper block contributes exactly one entry-header line. -/
lemma paperBlock_count (d : WorkspaceState) (i : Nat) (p : ArxivPaper) :
    (paperBlock d i p).countP (fun s => strStartsWith s "**") = 1 := by
  unfold paperBlock
  cases h : d.paperInsights.lookup p.id <;>
    simp [List.countP_cons, List.countP_nil, List.countP_append, String.append_assoc,
      starsPrefix_append, emptyNotStars,
      notStarsPrefix_of_head "   " rfl rfl,
      notStarsPrefix_of_head "   🔗 " rfl rfl,
      notStarsPrefix_of_head "   **Why it matters:** " rfl rfl,
      notStarsPrefix_of_head "   **Key finding:** " rfl rfl,
      notStarsPrefix_of_head "   **How to use it:** " rfl rfl]

/-- The flattened blocks contribute one entry header per listed paper. -/
lemma blocks_count (d : WorkspaceState) (l : List (Nat × ArxivPaper)) :
    ((l.map (fun ip => paperBlock d ip.1 ip.2)).flatten).countP
      (fun s => strStartsWith s "**") = l.length := by
  induction l with
  | nil => simp
  | cons a t ih =>
    simp [List.countP_append, ih, paperBlock_count]
    omega

/-- C8 (amended): in the ongoing phase, a message containing
`show sources` (and not matching the earlier progress intent, which
short-circuits first) returns the papers listing, and the listing
contains `min sources.length 10` entries — only the first ten sources are
listed, not all of them. -/
theorem c8_listing_caps_at_ten (o : Oracle) (d : WorkspaceState) (msg : String)
    (_hne : d.sources ≠ [])
    (hcontains : strContains (jsToLower msg) "show sources" = true)
    (hprog : progressTrigger (jsToLower msg) = false) :
    handleOngoing o d msg = buildPapersList d
    ∧ (papersListLines d).countP (fun s => strStartsWith s "**")
        = min d.sources.length 10 := by
  have hpt : papersTrigger (jsToLower msg) = true := by
    simp [papersTrigger, hcontains]
  constructor
  · simp [handleOngoing, hprog, hpt]
  · simp only [papersListLines, List.countP_append, blocks_count]
    have h1 : (["📚 **" ++ toString d.sources.length ++ " Papers Found**",
        ""] : List String).countP (fun s => strStartsWith s "**") = 0 := by
      simp [List.countP_cons, List.countP_nil, emptyNotStars, String.append_assoc,
        notStarsPrefix_of_head "📚 **" rfl rfl]
    rw [h1]
    simp [List.enum_length, List.length_take, Nat.min_comm]

/-- Workspace with eleven sources. -/
def c8State : WorkspaceState :=
  { initialState with
    sources := (List.range 11).map (fun n => demoPaper (toString n) "T"),
    phase := .ongoing }

set_option maxRecDepth 4096 in
/-- Counterexample to C8 as stated: with eleven sources the listing holds
ten entries, not `sources.length`. -/
theorem c8_counterexample :
    c8State.sources.length = 11
    ∧ (papersListLines c8State).countP (fun s => strStartsWith s "**") = 10
    ∧ handleOngoing demoOracle c8State "show sources" = buildPapersList c8State
    ∧ (10 : Nat) ≠ 11 :=
  ⟨by decide, by decide, by decide, by decide⟩

/-- Workspace with two sources. -/
def c8Small : WorkspaceState :=
  { initialState with
    sources := [demoPaper "1" "T", demoPaper "2" "U"], phase := .ongoing }

/-- Witness for the amended C8 at a two-source workspace. -/
theorem c8_witness :
    handleOngoing demoOracle c8Small "please show sources" = buildPapersList c8Small
    ∧ (papersListLines c8Small).countP (fun s => strStartsWith s "**")
        = min c8Small.sources.length 10 :=
  c8_listing_caps_at_ten demoOracle c8Small "please show sources"
    (by decide) (by decide) (by decide)

/-! ## Claim C9 — inbound request without a message field -/

/-- Client error in the sense of the specification: an HTTP 4xx status.
Modelled from the spec words "rejected synchronously with a client
error", to be compared with the status the code actually produces. -/
def specIsClientError (status : Nat) : Prop := 400 ≤ status ∧ status < 500

/-- C9 (amended): a chat request whose body lacks the `message` field is
rejected synchronously — the thrown TypeError is caught by the entry
point before any draft is initialised — with HTTP status 500 and no
state mutation; the status is a server error, not a client error. -/
theorem c9_missing_message_rejected (o : Oracle) (uuid : String)
    (st : WorkspaceState) (wid : Option String) :
    apiChat o uuid st ⟨wid, none⟩ = (500, st, none) := rfl

/-- Counterexample to C9 as stated: the rejection status is 500, which is
not a client (4xx) error. -/
theorem c9_counterexample :
    (apiChat demoOracle "u" initialState ⟨none, none⟩).1 = 500
    ∧ ¬ specIsClientError 500
    ∧ (apiChat demoOracle "u" initialState ⟨none, none⟩).2.1 = initialState :=
  ⟨rfl, by unfold specIsClientError; decide, rfl⟩

/-! ## Claim C10 — the sentinel never reaches the committed history -/

/-- The commit step either leaves the history unchanged or appends the
staged pair. -/
lemma commitPending_hist (o : Oracle) (st : WorkspaceState) :
    (commitPending o st).chatHistory = st.chatHistory
    ∨ (commitPending o st).chatHistory
        = st.chatHistory ++ [⟨.user, st.pendingUserMsg⟩, ⟨.assistant, st.pendingAssistantMsg⟩] := by
  unfold commitPending
  split
  · exact Or.inr rfl
  · exact Or.inl rfl

/-- Gathering never touches the chat history: the returned draft keeps
the history of the incoming draft, and the returned persisted state is
either the final draft or the untouched incoming persisted state. -/
lemma gather_hist (o : Oracle) (d st : WorkspaceState) :
    (gatherAndAnalyzeSources o d st).1.chatHistory = d.chatHistory
    ∧ ((gatherAndAnalyzeSources o d st).2.chatHistory = d.chatHistory
        ∨ (gatherAndAnalyzeSources o d st).2 = st) := by
  unfold gatherAndAnalyzeSources
  cases hd : d.plan with
  | some p => exact ⟨rfl, Or.inl rfl⟩
  | none =>
    cases hs : st.plan with
    | some p => exact ⟨rfl, Or.inl rfl⟩
    | none => exact ⟨rfl, Or.inr rfl⟩

/-- The planning handler never touches the chat history. -/
lemma handlePlanning_hist (o : Oracle) (d st : WorkspaceState) :
    ((handlePlanning o d st).1).chatHistory = d.chatHistory
    ∧ (((handlePlanning o d st).2.1).chatHistory = d.chatHistory
        ∨ (handlePlanning o d st).2.1 = st) := by
  unfold handlePlanning
  dsimp only
  have h := gather_hist o
    { d with
      plan := some (generatePlan o d), phase := .gathering,
      researchGoals := buildContextSummary d, lastUpdated := o.now } st
  exact ⟨h.1, h.2⟩

/-- The clarification handler never touches the chat history. -/
lemma handleClarification_hist (o : Oracle) (d st : WorkspaceState) (m : String) :
    ((handleClarification o d st m).1).chatHistory = d.chatHistory
    ∧ (((handleClarification o d st m).2.1).chatHistory = d.chatHistory
        ∨ (handleClarification o d st m).2.1 = st) := by
  unfold handleClarification
  by_cases hs : m = "__GENERATE_PLAN__"
  · rw [if_pos hs]
    by_cases ht : d.topic = ""
    · rw [if_pos ht]
      exact ⟨rfl, Or.inr rfl⟩
    · rw [if_neg ht]
      exact handlePlanning_hist o _ st
  · rw [if_neg hs]
    dsimp only
    refine ⟨?_, Or.inr rfl⟩
    by_cases ht : d.topic = ""
    · rw [if_pos ht]
      exact (extractFacts_fields o _ m).2.1
    · rw [if_neg ht]
      exact (extractFacts_fields o d m).2.1

/-- No phase handler touches the chat history of the draft, and the
persisted state after dispatch either keeps the draft history or is the
untouched incoming persisted state. -/
lemma dispatchPhase_hist (o : Oracle) (d st : WorkspaceState) (m : String) :
    ((dispatchPhase o d st m).1).chatHistory = d.chatHistory
    ∧ (((dispatchPhase o d st m).2.1).chatHistory = d.chatHistory
        ∨ (dispatchPhase o d st m).2.1 = st) := by
  unfold dispatchPhase
  cases d.phase with
  | clarification => exact handleClarification_hist o d st m
  | planning => exact handlePlanning_hist o d st
  | gathering =>
    dsimp only
    split
    · exact ⟨rfl, Or.inr rfl⟩
    · exact ⟨rfl, Or.inr rfl⟩
  | summarizing =>
    dsimp only
    split
    · exact ⟨rfl, Or.inr rfl⟩
    · exact ⟨rfl, Or.inr rfl⟩
  | ongoing => exact ⟨rfl, Or.inr rfl⟩

/-- The pending user message flushed by a turn is the trimmed inbound
message, with the sentinel replaced by its display text. -/
lemma runTurn_pending (o : Oracle) (st : WorkspaceState) (w m : String) :
    (runTurn o st w m).1.pendingUserMsg
      = (if jsTrim m = "__GENERATE_PLAN__" then "📋 Generate my research plan"
         else jsTrim m) := by
  unfold runTurn
  rfl

/-- History shape of the re-baselined draft of step 5, for any draft
whose history equals the committed history. -/
lemma step5_hist (o : Oracle) (st d2 : WorkspaceState) (um : String)
    (hd2 : d2.chatHistory = (commitPending o st).chatHistory) :
    ((if (dispatchPhase o d2 st um).1.phase = .planning
          ∨ (dispatchPhase o d2 st um).2.1.phase = .ongoing
          ∨ (dispatchPhase o d2 st um).2.1.phase = .summarizing
        then (dispatchPhase o d2 st um).2.1
        else (dispatchPhase o d2 st um).1)).chatHistory = st.chatHistory
    ∨ ((if (dispatchPhase o d2 st um).1.phase = .planning
          ∨ (dispatchPhase o d2 st um).2.1.phase = .ongoing
          ∨ (dispatchPhase o d2 st um).2.1.phase = .summarizing
        then (dispatchPhase o d2 st um).2.1
        else (dispatchPhase o d2 st um).1)).chatHistory
        = st.chatHistory
          ++ [⟨.user, st.pendingUserMsg⟩, ⟨.assistant, st.pendingAssistantMsg⟩] := by
  have base : ∀ (x : WorkspaceState), x.chatHistory = (commitPending o st).chatHistory →
      (x.chatHistory = st.chatHistory
        ∨ x.chatHistory = st.chatHistory
            ++ [⟨.user, st.pendingUserMsg⟩, ⟨.assistant, st.pendingAssistantMsg⟩]) := by
    intro x hx
    rcases commitPending_hist o st with hc | hc
    · exact Or.inl (hx.trans hc)
    · exact Or.inr (hx.trans hc)
  split
  · rcases (dispatchPhase_hist o d2 st um).2 with h | h
    · exact base _ (h.trans hd2)
    · rw [h]
      exact Or.inl rfl
  · exact base _ (((dispatchPhase_hist o d2 st um).1).trans hd2)

/-- The flushed history of one turn either equals the previous history or
extends it by exactly the previously staged pair — the per-turn shape
behind monotone history growth. -/
lemma runTurn_hist (o : Oracle) (st : WorkspaceState) (w m : String) :
    (runTurn o st w m).1.chatHistory = st.chatHistory
    ∨ (runTurn o st w m).1.chatHistory
        = st.chatHistory
          ++ [⟨.user, st.pendingUserMsg⟩, ⟨.assistant, st.pendingAssistantMsg⟩] := by
  unfold runTurn
  dsimp only
  refine step5_hist o st _ (jsTrim m) ?_
  split
  · rfl
  · rfl

/-- One turn preserves the invariant that no user-role message of the
history or staged pair carries the literal sentinel. -/
lemma runTurn_preserves_noSentinel (o : Oracle) (st : WorkspaceState) (w m : String)
    (h1 : ∀ mg ∈ st.chatHistory, mg.role = .user → mg.content ≠ "__GENERATE_PLAN__")
    (h2 : st.pendingUserMsg ≠ "__GENERATE_PLAN__") :
    (∀ mg ∈ (runTurn o st w m).1.chatHistory, mg.role = .user →
      mg.content ≠ "__GENERATE_PLAN__")
    ∧ (runTurn o st w m).1.pendingUserMsg ≠ "__GENERATE_PLAN__" := by
  constructor
  · rcases runTurn_hist o st w m with h | h <;> rw [h]
    · exact h1
    · intro mg hmg hrole
      rcases List.mem_append.mp hmg with hin | hpair
      · exact h1 mg hin hrole
      · simp only [List.mem_cons, List.not_mem_nil, or_false] at hpair
        rcases hpair with rfl | rfl
        · exact h2
        · exact absurd hrole (fun hr => Role.noConfusion hr)
  · rw [runTurn_pending o st w m]
    split
    · decide
    · next hc => exact hc

/-- The invariant holds along every trace of completed turns. -/
lemma runTrace_noSentinel (ts : List TurnInput) (st : WorkspaceState)
    (h1 : ∀ mg ∈ st.chatHistory, mg.role = .user → mg.content ≠ "__GENERATE_PLAN__")
    (h2 : st.pendingUserMsg ≠ "__GENERATE_PLAN__") :
    (∀ mg ∈ (runTrace st ts).chatHistory, mg.role = .user →
      mg.content ≠ "__GENERATE_PLAN__")
    ∧ (runTrace st ts).pendingUserMsg ≠ "__GENERATE_PLAN__" := by
  induction ts generalizing st with
  | nil => exact ⟨h1, h2⟩
  | cons t rest ih =>
    have hstep := runTurn_preserves_noSentinel t.o st t.wsId t.msg h1 h2
    exact ih (runTurn t.o st t.wsId t.msg).1 hstep.1 hstep.2

/-- C10: a turn whose trimmed message equals the sentinel stages the
fixed display text `📋 Generate my research plan` as the user side of
the pending exchange, and along every sequence of turns from a fresh
workspace no user-role message of the committed history ever carries the
literal sentinel string. -/
theorem c10_sentinel_never_committed :
    (∀ (o : Oracle) (st : WorkspaceState) (w m : String),
      jsTrim m = "__GENERATE_PLAN__" →
      (runTurn o st w m).1.pendingUserMsg = "📋 Generate my research plan")
    ∧ (∀ (ts : List TurnInput),
        ∀ mg ∈ (runTrace initialState ts).chatHistory,
          mg.role = .user → mg.content ≠ "__GENERATE_PLAN__") := by
  constructor
  · intro o st w m hm
    rw [runTurn_pending o st w m, if_pos hm]
  · intro ts
    exact (runTrace_noSentinel ts initialState
      (fun mg hmg _ => absurd hmg (List.not_mem_nil mg)) (by decide)).1

/-- Witness for C10 on a concrete sentinel turn and a concrete
three-turn trace. -/
theorem c10_witness :
    (runTurn demoOracle initialState "w" " __GENERATE_PLAN__ ").1.pendingUserMsg
      = "📋 Generate my research plan"
    ∧ (∀ mg ∈ (runTrace initialState
          [⟨demoOracle, "w", "t"⟩, ⟨demoOracle, "w", "__GENERATE_PLAN__"⟩,
           ⟨demoOracle, "w", "hi"⟩]).chatHistory,
        mg.role = .user → mg.content ≠ "__GENERATE_PLAN__") :=
  ⟨c10_sentinel_never_committed.1 demoOracle initialState "w" " __GENERATE_PLAN__ "
      (by decide),
   c10_sentinel_never_committed.2
      [⟨demoOracle, "w", "t"⟩, ⟨demoOracle, "w", "__GENERATE_PLAN__"⟩,
       ⟨demoOracle, "w", "hi"⟩]⟩

/-! ## Claim C1 — the deferred-commit protocol across turns -/

/-- Three completed turns: the opening topic message, the plan sentinel
(which runs planning and gathering synchronously and ends persisted in
phase `ongoing`), then one ordinary ongoing-phase message. -/
def c1Trace : List TurnInput :=
  [⟨demoOracle, "w1", "t"⟩, ⟨demoOracle, "w1", "__GENERATE_PLAN__"⟩,
   ⟨demoOracle, "w1", "hi"⟩]

/-- Evaluation of the code at the C1 failing input: after turn 2 its
exchange is duly staged and the persisted phase is `ongoing`; yet after
the third completed turn the read-out history (including the commit of
the final pending pair) holds only 4 messages — 2 pairs instead of the 3
pairs the claim requires — and the staged user side of turn 2 has
vanished.  The step-5 re-baseline of `onRequest` (`initDraft` when the
persisted phase is `ongoing` or `summarizing`) discards the commit
performed at the start of the turn, then overwrites the still-uncommitted
pending pair. -/
theorem c1_ongoing_turn_drops_pair :
    (runTrace initialState (c1Trace.take 2)).pendingUserMsg
        = "📋 Generate my research plan"
    ∧ (runTrace initialState (c1Trace.take 2)).phase = .ongoing
    ∧ (historyWithPending (runTrace initialState c1Trace)).length = 4
    ∧ (historyWithPending (runTrace initialState c1Trace)).length ≠ 2 * 3
    ∧ ((historyWithPending (runTrace initialState c1Trace)).map
        (fun mg => mg.content)).contains "📋 Generate my research plan" = false :=
  ⟨by decide, by decide, by decide, by decide, by decide⟩
